import Mathlib

/-!
Verification of the core of the movie-sampler application (`app.py`):
a shallow embedding of its scraping/normalisation helpers, its extraction
routine for structured movie metadata, and its data-access operations over
the Population and Data-Set collections, together with proofs of the
behavioural properties claimed for them.

Modelling conventions:
* Python/JSON values are modelled by the inductive type `Json`; Python `None`
  and JSON `null` are both `Json.null` (they are the same object in the
  program).  JSON integer and decimal literals are kept apart (`Json.int`
  versus `Json.float`), mirroring Python's `int`/`float`.  Decimal values are
  modelled as exact rationals: the program only parses, stores and compares
  them, so the idealised decimal value is the faithful abstraction.
* Exceptions are modelled with `Except PyErr`; code that cannot raise is a
  plain function.
* The HTTP layer is not modelled: `fetch_extract` embeds the extraction step
  of `fetch_min_from_imdb`, operating on the already-fetched response body.
  An `Html` value abstracts the parsed page: the list of `application/ld+json`
  script blocks, each given by its `json.loads` outcome (`.error` for a block
  whose content is not valid JSON, including the empty string), and the text
  of the `title-techspec_runtime` list item when that element exists.
-/

inductive Json where
  | null
  | bool (b : Bool)
  | int (n : Int)
  | float (q : ℚ)
  | str (s : String)
  | arr (xs : List Json)
  | obj (kvs : List (String × Json))

inductive PyErr where
  | typeError
  | valueError
  | attributeError
deriving DecidableEq

instance instDecEqExcept {e a : Type} [DecidableEq e] [DecidableEq a] :
    DecidableEq (Except e a) := fun x y =>
  match x, y with
  | .ok v, .ok w =>
    if h : v = w then isTrue (by rw [h]) else isFalse (fun hh => by cases hh; exact h rfl)
  | .error v, .error w =>
    if h : v = w then isTrue (by rw [h]) else isFalse (fun hh => by cases hh; exact h rfl)
  | .ok _, .error _ => isFalse (fun hh => by cases hh)
  | .error _, .ok _ => isFalse (fun hh => by cases hh)

/-- Test for the Python `None` value. -/
def Json.isNull : Json → Bool
  | .null => true
  | _ => false

mutual

/-- Python `repr` of a value, as used by `str()` on containers.  The textual
form of nested strings is modelled with a plain quote and no escape/quote
preference rules, and `repr` of a float prints `p/q`; no claim depends on
the repr of a container or of a float, only on `str` of `None`, booleans,
integers and strings, which are exact. -/
def pyRepr : Json → String
  | .null => "None"
  | .bool b => if b then "True" else "False"
  | .int n => toString n
  | .float q => toString q.num ++ "/" ++ toString q.den
  | .str s => "\x27" ++ s ++ "\x27"
  | .arr xs => "[" ++ pyReprList xs ++ "]"
  | .obj kvs => "\x7b" ++ pyReprPairs kvs ++ "\x7d"

/-- Comma-separated `repr`s of the elements of a Python list. -/
def pyReprList : List Json → String
  | [] => ""
  | [x] => pyRepr x
  | x :: xs => pyRepr x ++ ", " ++ pyReprList xs

/-- Comma-separated `key: value` `repr`s of the items of a Python dict. -/
def pyReprPairs : List (String × Json) → String
  | [] => ""
  | [(k, v)] => "\x27" ++ k ++ "\x27: " ++ pyRepr v
  | (k, v) :: kvs => "\x27" ++ k ++ "\x27: " ++ pyRepr v ++ ", " ++ pyReprPairs kvs

end

mutual

/-- Equality of stored values as the backend compares them in a filter:
structural, except that integer and decimal numbers compare numerically. -/
def mongoEq : Json → Json → Bool
  | .null, .null => true
  | .bool a, .bool b => a == b
  | .int a, .int b => a == b
  | .float a, .float b => a == b
  | .int a, .float b => (a : ℚ) == b
  | .float a, .int b => a == (b : ℚ)
  | .str a, .str b => a == b
  | .arr xs, .arr ys => mongoEqList xs ys
  | .obj a, .obj b => mongoEqPairs a b
  | _, _ => false

/-- Elementwise `mongoEq` on arrays. -/
def mongoEqList : List Json → List Json → Bool
  | [], [] => true
  | x :: xs, y :: ys => mongoEq x y && mongoEqList xs ys
  | _, _ => false

/-- Itemwise `mongoEq` on embedded documents (field order significant). -/
def mongoEqPairs : List (String × Json) → List (String × Json) → Bool
  | [], [] => true
  | (k1, v1) :: xs, (k2, v2) :: ys => k1 == k2 && mongoEq v1 v2 && mongoEqPairs xs ys
  | _, _ => false

end

/-- Python `str()` of a value: the string itself for a string, `repr`-style
text otherwise. -/
def pyStr : Json → String
  | .str s => s
  | j => pyRepr j

/-- Python truthiness of a value. -/
def pyTruthy : Json → Bool
  | .null => false
  | .bool b => b
  | .int n => n != 0
  | .float q => q != 0
  | .str s => !s.isEmpty
  | .arr xs => !xs.isEmpty
  | .obj kvs => !kvs.isEmpty

/-- Numeric value of a decimal digit character. -/
def charVal (c : Char) : Nat := c.toNat - 48

/-- Value of a string of decimal digit characters, most significant first
(the effect of Python `int` on a digit string). -/
def digitsValNat (ds : List Char) : Nat :=
  ds.foldl (fun a c => a * 10 + charVal c) 0

/-- Embedding of `_to_int_safe` (app.py lines 95-99): `None` maps to `None`;
otherwise every non-digit character of `str(text)` is stripped and the
remaining digits are parsed, `None` if none remain. -/
def to_int_safe (j : Json) : Option Int :=
  if j.isNull then none
  else
    let ds := (pyStr j).data.filter Char.isDigit
    if ds.isEmpty then none else some (digitsValNat ds : Nat)

/-- Embedding of `re.search(r"(\d+)X", s)` for a non-digit literal `X`:
scanning left to right, the first maximal digit run immediately followed by
the marker character; returns the run's numeric value. -/
def searchNum (marker : Char) : List Char → Option Nat
  | [] => none
  | c :: cs =>
    if c.isDigit && (((c :: cs).dropWhile Char.isDigit).head? == some marker)
    then some (digitsValNat ((c :: cs).takeWhile Char.isDigit))
    else searchNum marker cs

/-- Embedding of `re.search(r"(\d+)\s*x", s)`: as `searchNum`, but whitespace
may stand between the digit run and the marker. -/
def searchNumGap (marker : Char) : List Char → Option Nat
  | [] => none
  | c :: cs =>
    if c.isDigit &&
        ((((c :: cs).dropWhile Char.isDigit).dropWhile Char.isWhitespace).head? == some marker)
    then some (digitsValNat ((c :: cs).takeWhile Char.isDigit))
    else searchNumGap marker cs

/-- Core of `_iso8601_duration_to_minutes` on a (truthy) string argument
(app.py lines 104-112): hours are the first digit run before an `H`, minutes
the first digit run before an `M`, each 0 when absent; a zero total yields
`None`. -/
def iso_minutes_str (s : String) : Option Nat :=
  let h := (searchNum 'H' s.data).getD 0
  let m := (searchNum 'M' s.data).getD 0
  let total := h * 60 + m
  if total > 0 then some total else none

/-- Embedding of `_iso8601_duration_to_minutes` (app.py lines 101-112) on an
arbitrary argument: a falsy argument (`None`, `""`, `0`, empty containers)
returns `None`; a truthy string is parsed; a truthy non-string reaches
`re.search`, which raises `TypeError`. -/
def iso8601_duration_to_minutes (j : Json) : Except PyErr (Option Nat) :=
  if !(pyTruthy j) then .ok none
  else
    match j with
    | .str s => .ok (iso_minutes_str s)
    | _ => .error .typeError

/-- Embedding of Python `str.strip()`: whitespace removed from both ends. -/
def pyStrip (s : String) : String :=
  String.mk (((s.data.dropWhile Char.isWhitespace).reverse.dropWhile Char.isWhitespace).reverse)

/-- Split of a character list into its leading digit run and the rest. -/
def readDigits (cs : List Char) : List Char × List Char :=
  (cs.takeWhile Char.isDigit, cs.dropWhile Char.isDigit)

/-- Embedding of Python `float()` applied to a string: optional surrounding
whitespace, an optional sign, an integer part and/or a fractional part, and
an optional integer exponent, giving the exact decimal value as a rational;
anything else fails (Python raises `ValueError`).  The special forms
`inf`/`nan` and underscore digit separators are outside the model. -/
def parseFloat (s : String) : Option ℚ :=
  let cs := ((s.data.dropWhile Char.isWhitespace).reverse.dropWhile Char.isWhitespace).reverse
  let sgnCs : Int × List Char :=
    match cs with
    | '+' :: r => (1, r)
    | '-' :: r => (-1, r)
    | _ => (1, cs)
  let sgn := sgnCs.1
  let (ip, cs2) := readDigits sgnCs.2
  let fpCs : Option (List Char) × List Char :=
    match cs2 with
    | '.' :: r => (some (readDigits r).1, (readDigits r).2)
    | _ => (none, cs2)
  let frac := fpCs.1.getD []
  if ip.isEmpty && frac.isEmpty then none
  else
    let exCs : Option Int × List Char :=
      match fpCs.2 with
      | 'e' :: r =>
        let sgnR : Int × List Char :=
          match r with
          | '+' :: r2 => (1, r2)
          | '-' :: r2 => (-1, r2)
          | _ => (1, r)
        let (ed, r3) := readDigits sgnR.2
        if ed.isEmpty then (none, r3) else (some (sgnR.1 * digitsValNat ed), r3)
      | 'E' :: r =>
        let sgnR : Int × List Char :=
          match r with
          | '+' :: r2 => (1, r2)
          | '-' :: r2 => (-1, r2)
          | _ => (1, r)
        let (ed, r3) := readDigits sgnR.2
        if ed.isEmpty then (none, r3) else (some (sgnR.1 * digitsValNat ed), r3)
      | _ => (some 0, fpCs.2)
    match exCs.1 with
    | none => none
    | some e =>
      if exCs.2.isEmpty then
        let mant : Int := sgn * (digitsValNat (ip ++ frac) : Nat)
        if 0 ≤ e then
          some (mkRat (mant * (10 : Int) ^ e.toNat) ((10 : Nat) ^ frac.length))
        else
          some (mkRat mant ((10 : Nat) ^ frac.length * (10 : Nat) ^ (-e).toNat))
      else none

/-- Embedding of Python `float()` on an arbitrary (non-`None`) value:
numbers and booleans coerce, strings are parsed (`ValueError` on failure),
anything else raises `TypeError`. -/
def pyFloat : Json → Except PyErr ℚ
  | .int n => .ok (n : ℚ)
  | .float q => .ok q
  | .bool b => .ok (if b then 1 else 0)
  | .str s =>
    match parseFloat s with
    | some q => .ok q
    | none => .error .valueError
  | _ => .error .typeError

/-- Abstraction of the parsed response body (see the module comment):
`ldScripts` holds the `json.loads` outcome of each `application/ld+json`
script block in document order; `runtimeTag` holds the extracted text of the
`title-techspec_runtime` list item, when that element exists. -/
structure Html where
  ldScripts : List (Except Unit Json)
  runtimeTag : Option String

/-- Selection test inside the JSON-LD loop (app.py lines 140-145): a dict
whose `@type` is `"Movie"` or `"CreativeWork"`. -/
def isMovieObj : Json → Option (List (String × Json))
  | .obj kvs =>
    match ((kvs.find? (fun kv => kv.1 == "@type")).map Prod.snd : Option Json) with
    | some (.str t) => if t == "Movie" || t == "CreativeWork" then some kvs else none
    | _ => none
  | _ => none

/-- Embedding of the JSON-LD scan (app.py lines 135-149): blocks are visited
in document order; a block that fails to parse is skipped; a list block
contributes its first matching dict; scanning stops at the first match. -/
def findLd : List (Except Unit Json) → Option (List (String × Json))
  | [] => none
  | .error _ :: rest => findLd rest
  | .ok j :: rest =>
    match j with
    | .arr items =>
      match items.findSome? isMovieObj with
      | some kvs => some kvs
      | none => findLd rest
    | _ =>
      match isMovieObj j with
      | some kvs => some kvs
      | none => findLd rest

/-- Python `d.get(k)`: the value at the first matching key, `None` if
absent. -/
def jGet (kvs : List (String × Json)) (k : String) : Json :=
  match (kvs.find? (fun kv => kv.1 == k)).map (·.2) with
  | some v => v
  | none => .null

/-- Embedding of the `Year` extraction (app.py lines 158-161):
`re.match(r"(\d{4})", str(v))` succeeds exactly when the first four
characters are digits. -/
def matchYear (s : String) : Option Int :=
  match s.data with
  | a :: b :: c :: d :: _ =>
    if a.isDigit && b.isDigit && c.isDigit && d.isDigit
    then some ((digitsValNat [a, b, c, d] : Nat) : Int)
    else none
  | _ => none

/-- Python `agg.get(...)` on the value bound by
`agg = ld.get("aggregateRating") or {}`: only a dict has a `get` attribute;
any other (truthy) value raises `AttributeError`. -/
def aggAsObj : Json → Except PyErr (List (String × Json))
  | .obj kvs => .ok kvs
  | _ => .error .attributeError

/-- Result dict of `fetch_min_from_imdb` (app.py lines 182-188). -/
structure ScrapedDoc where
  url : String
  year : Option Int
  rating : Option ℚ
  votes : Option Int
  runtime : Option Nat
deriving DecidableEq

/-- Embedding of the runtime fallback (app.py lines 172-180): hour and
minute counts read from the runtime element's text; a zero total (also when
neither count is present) is `None`. -/
def fallback_runtime : Option String → Option Nat
  | none => none
  | some txt =>
    let h := searchNumGap 'h' txt.data
    let m := searchNumGap 'm' txt.data
    let v := (match h with | some hh => hh * 60 | none => 0) + (m.getD 0)
    if v == 0 then none else some v

/-- Embedding of the extraction step of `fetch_min_from_imdb` (app.py lines
132-188), after the HTTP response body has been fetched and parsed: JSON-LD
selection, the four field extractions (each of which can raise, modelled by
`Except`), the runtime fallback, and the result dict. -/
def fetch_extract (url : String) (page : Html) : Except PyErr ScrapedDoc := do
  let fields : Option Int × Option ℚ × Option Int × Option Nat ←
    match findLd page.ldScripts with
    | none => pure (none, none, none, none)
    | some ld => do
      let year : Option Int :=
        if pyTruthy (jGet ld "datePublished")
        then matchYear (pyStr (jGet ld "datePublished"))
        else none
      let aggVal := jGet ld "aggregateRating"
      let agg ← aggAsObj (if pyTruthy aggVal then aggVal else .obj [])
      let rv := jGet agg "ratingValue"
      let rating : Option ℚ ←
        if rv.isNull then pure none
        else do pure (some (← pyFloat rv))
      let votes := to_int_safe (jGet agg "ratingCount")
      let runtime ← iso8601_duration_to_minutes (jGet ld "duration")
      pure (year, rating, votes, runtime)
  let (year, rating, votes, runtime) := fields
  let runtime2 :=
    match runtime with
    | some v => some v
    | none => fallback_runtime page.runtimeTag
  pure { url := url, year := year, rating := rating, votes := votes, runtime := runtime2 }

/-- Document of the Population collection: the two projected fields plus any
other fields the stored document carries (never fetched). -/
structure PopDoc where
  ID : Int
  Movie : String
  extra : List (String × Json)

/-- Order used by `.sort("ID", 1)`. -/
def popLE (a b : PopDoc) : Prop := a.ID ≤ b.ID

instance : DecidableRel popLE := fun a b => Int.decLe a.ID b.ID

instance : IsTotal PopDoc popLE := ⟨fun a b => Int.le_total a.ID b.ID⟩

instance : IsTrans PopDoc popLE := ⟨fun _ _ _ => Int.le_trans⟩

/-- Error message reported when the population cannot be listed. -/
def loadErrMsg : String := "Could not reach MongoDB Atlas"

/-- Embedding of `load_df` (app.py lines 56-68): on a reachable backend,
the documents projected to `(ID, Movie)` and sorted by `ID` ascending; on a
connection failure, an empty frame plus a reported error. -/
def load_df (up : Bool) (pop : List PopDoc) : List (Int × String) × Option String :=
  if up then
    ((List.insertionSort popLE pop).map (fun d => (d.ID, d.Movie)), none)
  else ([], some loadErrMsg)

/-- Removal of the first document with the given `ID`, with the deleted
count (the effect of `col.delete_one({"ID": id})`). -/
def removeFirstByID (i : Int) : List PopDoc → List PopDoc × Nat
  | [] => ([], 0)
  | d :: ds =>
    if d.ID == i then (ds, 1)
    else
      let r := removeFirstByID i ds
      (d :: r.1, r.2)

/-- Embedding of `delete_one_by_id` (app.py lines 70-76): the new state of
the population, the deleted count, and the reported error if any. -/
def delete_one_by_id (up : Bool) (pop : List PopDoc) (i : Int) :
    List PopDoc × Nat × Option String :=
  if up then
    let r := removeFirstByID i pop
    (r.1, r.2, none)
  else (pop, 0, some "Delete failed")

/-- Embedding of `delete_many_by_ids` (app.py lines 87-93): documents whose
`ID` lies in the given list are removed in one bulk operation; on failure
the state is untouched and the count is 0. -/
def delete_many_by_ids (up : Bool) (pop : List PopDoc) (ids : List Int) :
    List PopDoc × Nat × Option String :=
  if up then
    let kept := pop.filter (fun d => !ids.contains d.ID)
    (kept, pop.length - kept.length, none)
  else (pop, 0, some "Bulk delete failed")

/-- Embedding of `sample_docs` (app.py lines 78-85).  The `$sample` stage is
nondeterministic; its reply (already projected to `(ID, Movie)`) is an
explicit parameter, constrained by `IsSample` where a property depends on
it.  On failure the result is empty plus a reported error. -/
def sample_docs (up : Bool) (reply : List (Int × String)) :
    List (Int × String) × Option String :=
  if up then (reply, none) else ([], some "Sampling failed")

/-- Characterisation of a `$sample` reply of size `k` from the population:
`k` of the projected documents, in any order. -/
def IsSample (pop : List PopDoc) (k : Nat) (s : List (Int × String)) : Prop :=
  s.length = k ∧ List.Subperm s (pop.map (fun d => (d.ID, d.Movie)))

/-- Stored document of the Data-Set collection: an ordered association list
of fields, as the backend stores it. -/
abbrev DSDoc := List (String × Json)

/-- Value of a field of a stored document, if present. -/
def docGet? (doc : DSDoc) (k : String) : Option Json :=
  (doc.find? (fun kv => kv.1 == k)).map (·.2)

/-- Backend semantics of one equality condition of a filter: a `null`
condition matches a missing as well as a `null` field; any other condition
matches by value equality. -/
def fieldMatches (doc : DSDoc) (k : String) (v : Json) : Bool :=
  match v with
  | .null =>
    match docGet? doc k with
    | none => true
    | some w => w.isNull
  | _ =>
    match docGet? doc k with
    | none => false
    | some w => mongoEq w v

/-- A document matches a filter when it matches every condition. -/
def matchesFilter (filt : DSDoc) (doc : DSDoc) : Bool :=
  filt.all (fun kv => fieldMatches doc kv.1 kv.2)

/-- Effect of `$set` on one field: the first occurrence is overwritten in
place, a missing field is appended. -/
def setField : DSDoc → String → Json → DSDoc
  | [], k, v => [(k, v)]
  | kv :: ds, k, v => if kv.1 == k then (k, v) :: ds else kv :: setField ds k v

/-- Effect of `$set` with a whole update document. -/
def setFields (doc : DSDoc) (upd : DSDoc) : DSDoc :=
  upd.foldl (fun d kv => setField d kv.1 kv.2) doc

/-- Embedding of `update_one(filter, {"$set": upd}, upsert=True)`: the first
matching document is updated in place; with no match, a document built from
the filter's equality fields and the update is inserted. -/
def update_one_upsert (store : List DSDoc) (filt upd : DSDoc) : List DSDoc :=
  match store with
  | [] => [setFields filt upd]
  | d :: ds =>
    if matchesFilter filt d then setFields d upd :: ds
    else d :: update_one_upsert ds filt upd

/-- Number of stored documents matching a filter. -/
def matchCount (store : List DSDoc) (filt : DSDoc) : Nat :=
  store.countP (fun d => matchesFilter filt d)

/-- Embedding of the comma-separated-input helper `to_list` (app.py line
298): split on commas, strip each part, drop empty parts; an empty input
gives the empty list. -/
def to_list (s : String) : List String :=
  if s.isEmpty then []
  else ((s.splitOn ",").map pyStrip).filter (fun x => !x.isEmpty)

/-- Field names of the Data-Set record, in the order `doc_out` lists them
(app.py lines 299-311). -/
def dsFields : List String :=
  ["URL", "Movie", "Genre", "Year", "IMDb rating", "Director",
   "Number of Votes", "Writer", "Country", "Runtime", "Gross Profit"]

/-- Embedding of the `doc_out` dict built by the save handler (app.py lines
298-311) from the URL input, the manual inputs and the fetched fields. -/
def mkDocOut (url mv genre dirs writers countries : String) (gross : Nat)
    (fetched : Option ScrapedDoc) : DSDoc :=
  [("URL", if url.isEmpty then Json.null else Json.str (pyStrip url)),
   ("Movie", if mv.isEmpty then Json.null else Json.str mv),
   ("Genre", Json.arr ((to_list genre).map Json.str)),
   ("Year",
     match fetched with
     | some f => match f.year with | some y => Json.int y | none => Json.null
     | none => Json.null),
   ("IMDb rating",
     match fetched with
     | some f => match f.rating with | some q => Json.float q | none => Json.null
     | none => Json.null),
   ("Director", Json.arr ((to_list dirs).map Json.str)),
   ("Number of Votes",
     match fetched with
     | some f => match f.votes with | some n => Json.int n | none => Json.null
     | none => Json.null),
   ("Writer", Json.arr ((to_list writers).map Json.str)),
   ("Country", Json.arr ((to_list countries).map Json.str)),
   ("Runtime",
     match fetched with
     | some f => match f.runtime with | some n => Json.int n | none => Json.null
     | none => Json.null),
   ("Gross Profit", if gross == 0 then Json.null else Json.int gross)]

/-- Key filter of the save handler (app.py line 313): `URL` when the built
document's `URL` value is truthy, else the `(Movie, Year)` pair. -/
def saveKey (d : DSDoc) : DSDoc :=
  let u := (docGet? d "URL").getD .null
  if pyTruthy u then [("URL", u)]
  else [("Movie", (docGet? d "Movie").getD .null), ("Year", (docGet? d "Year").getD .null)]

/-- Embedding of the save handler's store effect (app.py lines 299-314):
build `doc_out`, choose the key filter, upsert. -/
def save_to_dataset (store : List DSDoc) (url mv genre dirs writers countries : String)
    (gross : Nat) (fetched : Option ScrapedDoc) : List DSDoc :=
  let d := mkDocOut url mv genre dirs writers countries gross fetched
  update_one_upsert store (saveKey d) d

/-! ### Decimal rendering of numbers, and facts about the digit parsers -/

/-- Canonical decimal digit string of a natural number (most significant
digit first), used to quantify over inputs that carry a number. -/
def numChars (n : Nat) : List Char :=
  if n = 0 then ['0'] else ((Nat.digits 10 n).reverse.map Nat.digitChar)

theorem charVal_digitChar {d : Nat} (hd : d < 10) : charVal d.digitChar = d := by
  interval_cases d <;> rfl

theorem digitChar_isDigit {d : Nat} (hd : d < 10) : d.digitChar.isDigit = true := by
  interval_cases d <;> rfl

theorem digitsValNat_snoc (xs : List Char) (c : Char) :
    digitsValNat (xs ++ [c]) = digitsValNat xs * 10 + charVal c := by
  simp [digitsValNat, List.foldl_append]

theorem digitsValNat_rev_map (L : List Nat) (h : ∀ d ∈ L, d < 10) :
    digitsValNat ((L.map Nat.digitChar).reverse) = Nat.ofDigits 10 L := by
  induction L with
  | nil => rfl
  | cons d T ih =>
    have hd : d < 10 := h d (by simp)
    have hT : ∀ x ∈ T, x < 10 := fun x hx => h x (by simp [hx])
    simp only [List.map_cons, List.reverse_cons, digitsValNat_snoc, ih hT,
      Nat.ofDigits_cons, charVal_digitChar hd]
    ring

theorem digitsValNat_numChars (n : Nat) : digitsValNat (numChars n) = n := by
  unfold numChars
  split
  · simp_all [digitsValNat, charVal]
  · rw [List.map_reverse, digitsValNat_rev_map _ (fun d hd => Nat.digits_lt_base (by norm_num) hd),
      Nat.ofDigits_digits]

theorem numChars_isDigit (n : Nat) : ∀ c ∈ numChars n, c.isDigit = true := by
  unfold numChars
  split
  · intro c hc; simp at hc; subst hc; rfl
  · intro c hc
    simp only [List.mem_map, List.mem_reverse] at hc
    obtain ⟨d, hd, rfl⟩ := hc
    exact digitChar_isDigit (Nat.digits_lt_base (by norm_num) hd)

theorem numChars_ne_nil (n : Nat) : numChars n ≠ [] := by
  unfold numChars
  split
  · simp
  · simp [Nat.digits_ne_nil_iff_ne_zero, *]

theorem takeWhile_digits_append {ds rest : List Char}
    (hds : ∀ c ∈ ds, c.isDigit = true)
    (hr : ∀ c, rest.head? = some c → c.isDigit = false) :
    (ds ++ rest).takeWhile Char.isDigit = ds ∧
      (ds ++ rest).dropWhile Char.isDigit = rest := by
  induction ds with
  | nil =>
    simp only [List.nil_append]
    cases rest with
    | nil => simp
    | cons c cs => simp [List.takeWhile_cons, List.dropWhile_cons, hr c rfl]
  | cons c ds ih =>
    have hc : c.isDigit = true := hds c (by simp)
    have ih2 := ih (fun x hx => hds x (by simp [hx]))
    simp [List.takeWhile_cons, List.dropWhile_cons, hc, ih2.1, ih2.2]

theorem searchNum_append_nondigit {pre : List Char}
    (h : ∀ c ∈ pre, c.isDigit = false) (mk : Char) (rest : List Char) :
    searchNum mk (pre ++ rest) = searchNum mk rest := by
  induction pre with
  | nil => rfl
  | cons c pre ih =>
    have hc : c.isDigit = false := h c (by simp)
    simp only [List.cons_append, searchNum, hc, Bool.false_and, Bool.false_eq_true,
      if_neg, ite_false]
    exact ih (fun x hx => h x (by simp [hx]))

theorem searchNum_hit {ds rest : List Char} {mk : Char}
    (hds : ∀ c ∈ ds, c.isDigit = true) (hne : ds ≠ [])
    (hhead : rest.head? = some mk) (hmk : mk.isDigit = false) :
    searchNum mk (ds ++ rest) = some (digitsValNat ds) := by
  cases ds with
  | nil => exact absurd rfl hne
  | cons c ds =>
    have hc : c.isDigit = true := hds c (by simp)
    have hr : ∀ x, rest.head? = some x → x.isDigit = false := by
      intro x hx; rw [hhead] at hx; cases hx; exact hmk
    have htd := @takeWhile_digits_append (c :: ds) rest hds hr
    rw [List.cons_append, searchNum]
    rw [← List.cons_append, htd.1, htd.2]
    simp [hc, hhead]

theorem searchNum_miss {ds rest : List Char} {mk : Char}
    (hds : ∀ c ∈ ds, c.isDigit = true)
    (hr : ∀ c, rest.head? = some c → c.isDigit = false)
    (hne : rest.head? ≠ some mk) :
    searchNum mk (ds ++ rest) = searchNum mk rest := by
  induction ds with
  | nil => rfl
  | cons c ds ih =>
    have hc : c.isDigit = true := hds c (by simp)
    have hds2 : ∀ x ∈ ds, x.isDigit = true := fun x hx => hds x (by simp [hx])
    have htd := @takeWhile_digits_append (c :: ds) rest hds hr
    rw [List.cons_append, searchNum]
    rw [← List.cons_append, htd.2]
    have : (rest.head? == some mk) = false := by
      cases h : rest.head? == some mk
      · rfl
      · exact absurd (by simpa using h) hne
    simp only [this, Bool.and_false, Bool.false_eq_true, if_neg, ite_false]
    exact ih hds2

theorem head_notDigit_H : ∀ c : Char, List.head? ('H' :: l) = some c → c.isDigit = false := by
  intro c hc
  rw [List.head?] at hc
  cases hc
  rfl

theorem head_notDigit_M : ∀ c : Char, List.head? ('M' :: l) = some c → c.isDigit = false := by
  intro c hc
  rw [List.head?] at hc
  cases hc
  rfl

theorem searchNum_H_in_HM (h m : Nat) :
    searchNum 'H' ('P' :: 'T' :: (numChars h ++ 'H' :: (numChars m ++ ['M']))) = some h := by
  have hskip := @searchNum_append_nondigit ['P', 'T'] (by decide) 'H'
    (numChars h ++ 'H' :: (numChars m ++ ['M']))
  rw [show ('P' :: 'T' :: (numChars h ++ 'H' :: (numChars m ++ ['M']))) =
      ['P', 'T'] ++ (numChars h ++ 'H' :: (numChars m ++ ['M'])) from rfl, hskip]
  rw [@searchNum_hit (numChars h) ('H' :: (numChars m ++ ['M'])) 'H' (numChars_isDigit h)
    (numChars_ne_nil h) rfl rfl,
    digitsValNat_numChars]

theorem searchNum_M_in_HM (h m : Nat) :
    searchNum 'M' ('P' :: 'T' :: (numChars h ++ 'H' :: (numChars m ++ ['M']))) = some m := by
  have hskip := @searchNum_append_nondigit ['P', 'T'] (by decide) 'M'
    (numChars h ++ 'H' :: (numChars m ++ ['M']))
  rw [show ('P' :: 'T' :: (numChars h ++ 'H' :: (numChars m ++ ['M']))) =
      ['P', 'T'] ++ (numChars h ++ 'H' :: (numChars m ++ ['M'])) from rfl, hskip]
  rw [searchNum_miss (numChars_isDigit h) head_notDigit_H (by simp)]
  rw [show ('H' :: (numChars m ++ ['M'])) = ['H'] ++ (numChars m ++ ['M']) from rfl,
    searchNum_append_nondigit (by decide)]
  rw [@searchNum_hit (numChars m) ['M'] 'M' (numChars_isDigit m) (numChars_ne_nil m) rfl rfl,
    digitsValNat_numChars]

theorem iso_minutes_str_HM (h m : Nat) :
    iso_minutes_str (String.mk ('P' :: 'T' :: (numChars h ++ 'H' :: (numChars m ++ ['M'])))) =
      if h * 60 + m = 0 then none else some (h * 60 + m) := by
  unfold iso_minutes_str
  rw [show (String.mk ('P' :: 'T' :: (numChars h ++ 'H' :: (numChars m ++ ['M'])))).data =
      'P' :: 'T' :: (numChars h ++ 'H' :: (numChars m ++ ['M'])) from rfl]
  rw [searchNum_H_in_HM, searchNum_M_in_HM]
  simp only [Option.getD_some]
  rcases Nat.eq_zero_or_pos (h * 60 + m) with hz | hp
  · simp [hz]
  · simp [hp, Nat.pos_iff_ne_zero.mp hp]

theorem searchNum_H_in_M (m : Nat) :
    searchNum 'H' ('P' :: 'T' :: (numChars m ++ ['M'])) = none := by
  have hskip := @searchNum_append_nondigit ['P', 'T'] (by decide) 'H'
    (numChars m ++ ['M'])
  rw [show ('P' :: 'T' :: (numChars m ++ ['M'])) =
      ['P', 'T'] ++ (numChars m ++ ['M']) from rfl, hskip]
  rw [searchNum_miss (numChars_isDigit m) head_notDigit_M (by simp)]
  rfl

theorem searchNum_M_in_M (m : Nat) :
    searchNum 'M' ('P' :: 'T' :: (numChars m ++ ['M'])) = some m := by
  have hskip := @searchNum_append_nondigit ['P', 'T'] (by decide) 'M'
    (numChars m ++ ['M'])
  rw [show ('P' :: 'T' :: (numChars m ++ ['M'])) =
      ['P', 'T'] ++ (numChars m ++ ['M']) from rfl, hskip]
  rw [@searchNum_hit (numChars m) ['M'] 'M' (numChars_isDigit m) (numChars_ne_nil m) rfl rfl,
    digitsValNat_numChars]

theorem iso_minutes_str_M (m : Nat) :
    iso_minutes_str (String.mk ('P' :: 'T' :: (numChars m ++ ['M']))) =
      if m = 0 then none else some m := by
  unfold iso_minutes_str
  rw [show (String.mk ('P' :: 'T' :: (numChars m ++ ['M']))).data =
      'P' :: 'T' :: (numChars m ++ ['M']) from rfl]
  rw [searchNum_H_in_M, searchNum_M_in_M]
  simp only [Option.getD_some, Option.getD_none, Nat.zero_mul, Nat.zero_add]
  rcases Nat.eq_zero_or_pos m with hz | hp
  · simp [hz]
  · simp [hp, Nat.pos_iff_ne_zero.mp hp]

theorem searchNum_H_in_H (h : Nat) :
    searchNum 'H' ('P' :: 'T' :: (numChars h ++ ['H'])) = some h := by
  have hskip := @searchNum_append_nondigit ['P', 'T'] (by decide) 'H'
    (numChars h ++ ['H'])
  rw [show ('P' :: 'T' :: (numChars h ++ ['H'])) =
      ['P', 'T'] ++ (numChars h ++ ['H']) from rfl, hskip]
  rw [@searchNum_hit (numChars h) ['H'] 'H' (numChars_isDigit h) (numChars_ne_nil h) rfl rfl,
    digitsValNat_numChars]

theorem searchNum_M_in_H (h : Nat) :
    searchNum 'M' ('P' :: 'T' :: (numChars h ++ ['H'])) = none := by
  have hskip := @searchNum_append_nondigit ['P', 'T'] (by decide) 'M'
    (numChars h ++ ['H'])
  rw [show ('P' :: 'T' :: (numChars h ++ ['H'])) =
      ['P', 'T'] ++ (numChars h ++ ['H']) from rfl, hskip]
  rw [searchNum_miss (numChars_isDigit h) head_notDigit_H (by simp)]
  rfl

theorem iso_minutes_str_H (h : Nat) :
    iso_minutes_str (String.mk ('P' :: 'T' :: (numChars h ++ ['H']))) =
      if h = 0 then none else some (h * 60) := by
  unfold iso_minutes_str
  rw [show (String.mk ('P' :: 'T' :: (numChars h ++ ['H']))).data =
      'P' :: 'T' :: (numChars h ++ ['H']) from rfl]
  rw [searchNum_H_in_H, searchNum_M_in_H]
  simp only [Option.getD_some, Option.getD_none, Nat.add_zero]
  rcases Nat.eq_zero_or_pos h with hz | hp
  · simp [hz]
  · have : 0 < h * 60 := by positivity
    simp [this, Nat.pos_iff_ne_zero.mp hp]

/-! ### Facts about filter matching and `$set` updates -/

mutual

theorem mongoEq_refl : ∀ j : Json, mongoEq j j = true
  | .null => rfl
  | .bool b => by simp [mongoEq]
  | .int n => by simp [mongoEq]
  | .float q => by simp [mongoEq]
  | .str s => by simp [mongoEq]
  | .arr xs => by rw [mongoEq]; exact mongoEqList_refl xs
  | .obj kvs => by rw [mongoEq]; exact mongoEqPairs_refl kvs

theorem mongoEqList_refl : ∀ xs : List Json, mongoEqList xs xs = true
  | [] => rfl
  | x :: xs => by rw [mongoEqList]; simp [mongoEq_refl x, mongoEqList_refl xs]

theorem mongoEqPairs_refl : ∀ kvs : List (String × Json), mongoEqPairs kvs kvs = true
  | [] => rfl
  | (k, v) :: kvs => by rw [mongoEqPairs]; simp [mongoEq_refl v, mongoEqPairs_refl kvs]

end

theorem docGet?_setField_self (doc : DSDoc) (k : String) (v : Json) :
    docGet? (setField doc k v) k = some v := by
  induction doc with
  | nil => simp [setField, docGet?]
  | cons kv ds ih =>
    by_cases h : kv.1 == k
    · simp [setField, h, docGet?]
    · simp only [setField, h, Bool.false_eq_true, if_neg, ite_false]
      simp only [docGet?, List.find?] at ih ⊢
      simp [h, ih]

theorem docGet?_setField_other (doc : DSDoc) {k k2 : String} (v : Json) (h : k2 ≠ k) :
    docGet? (setField doc k v) k2 = docGet? doc k2 := by
  have hkk : (k == k2) = false := by
    cases hc : k == k2
    · rfl
    · have heq : k = k2 := by simpa using hc
      exact absurd heq.symm h
  induction doc with
  | nil => simp [setField, docGet?, List.find?, hkk]
  | cons kv ds ih =>
    by_cases hk : kv.1 == k
    · have hkv2 : (kv.1 == k2) = false := by
        cases hc : kv.1 == k2
        · rfl
        · have h1 : kv.1 = k := by simpa using hk
          have h2 : kv.1 = k2 := by simpa using hc
          exact absurd (h1.symm.trans h2).symm h
      simp [setField, hk, docGet?, List.find?, hkk, hkv2]
    · simp only [setField, hk, Bool.false_eq_true, if_neg, ite_false]
      simp only [docGet?, List.find?] at ih ⊢
      cases hc : kv.1 == k2
      · simpa [hc] using ih
      · simp [hc]

theorem docGet?_setFields_notMem (upd : DSDoc) (doc : DSDoc) {k : String}
    (h : ∀ kv ∈ upd, kv.1 ≠ k) :
    docGet? (setFields doc upd) k = docGet? doc k := by
  induction upd generalizing doc with
  | nil => rfl
  | cons kv upd ih =>
    have h0 : kv.1 ≠ k := h kv (by simp)
    show docGet? (setFields (setField doc kv.1 kv.2) upd) k = _
    rw [ih (setField doc kv.1 kv.2) (fun x hx => h x (by simp [hx])),
      docGet?_setField_other doc kv.2 (Ne.symm h0)]

theorem docGet?_setFields_mem (upd : DSDoc) (doc : DSDoc) {k : String} {v : Json}
    (hn : (upd.map Prod.fst).Nodup) (hm : (k, v) ∈ upd) :
    docGet? (setFields doc upd) k = some v := by
  induction upd generalizing doc with
  | nil => cases hm
  | cons kv upd ih =>
    rcases List.mem_cons.mp hm with h0 | h0
    · subst h0
      show docGet? (setFields (setField doc k v) upd) k = some v
      have hk : ∀ x ∈ upd, x.1 ≠ k := by
        intro x hx
        have := (List.nodup_cons.mp hn).1
        intro hc
        exact this (by simpa [hc] using List.mem_map_of_mem Prod.fst hx)
      rw [docGet?_setFields_notMem upd _ hk, docGet?_setField_self]
    · show docGet? (setFields (setField doc kv.1 kv.2) upd) k = some v
      exact ih _ (List.nodup_cons.mp hn).2 h0

theorem matchesFilter_of_get (filt doc : DSDoc)
    (h : ∀ kv ∈ filt, docGet? doc kv.1 = some kv.2) :
    matchesFilter filt doc = true := by
  rw [matchesFilter, List.all_eq_true]
  intro kv hkv
  have hg := h kv hkv
  cases hv : kv.2 with
  | null => rw [hv] at hg; simp [fieldMatches, hg, Json.isNull]
  | bool b => simp [fieldMatches, hv, hv ▸ hg, mongoEq_refl]
  | int n => simp [fieldMatches, hv, hv ▸ hg, mongoEq_refl]
  | float q => simp [fieldMatches, hv, hv ▸ hg, mongoEq_refl]
  | str s => simp [fieldMatches, hv, hv ▸ hg, mongoEq_refl]
  | arr xs => simp [fieldMatches, hv, hv ▸ hg, mongoEq_refl]
  | obj kvs => simp [fieldMatches, hv, hv ▸ hg, mongoEq_refl]

theorem update_one_no_match (store : List DSDoc) (filt upd : DSDoc)
    (h : store.countP (fun d => matchesFilter filt d) = 0) :
    update_one_upsert store filt upd = store ++ [setFields filt upd] := by
  induction store with
  | nil => rfl
  | cons d ds ih =>
    rw [List.countP_cons] at h
    have hd : matchesFilter filt d = false := by
      cases hc : matchesFilter filt d
      · rfl
      · simp [hc] at h
    rw [update_one_upsert, if_neg (by simp [hd]), ih (by omega)]
    rfl

theorem upsert_spec (store : List DSDoc) (filt upd : DSDoc)
    (hK : ∀ kv ∈ filt, kv ∈ upd) (hN : (upd.map Prod.fst).Nodup)
    (hle : store.countP (fun d => matchesFilter filt d) ≤ 1) :
    (update_one_upsert store filt upd).countP (fun d => matchesFilter filt d) = 1 ∧
      ∀ doc ∈ update_one_upsert store filt upd, matchesFilter filt doc = true →
        ∀ kv ∈ upd, docGet? doc kv.1 = some kv.2 := by
  have hset : ∀ base : DSDoc, matchesFilter filt (setFields base upd) = true := by
    intro base
    exact matchesFilter_of_get _ _
      (fun kv hkv => docGet?_setFields_mem upd base hN (hK kv hkv))
  induction store with
  | nil =>
    refine ⟨by simp [update_one_upsert, List.countP_cons, hset], ?_⟩
    intro doc hdoc _ kv hkv
    rw [update_one_upsert] at hdoc
    simp only [List.mem_singleton] at hdoc
    subst hdoc
    exact docGet?_setFields_mem upd filt hN hkv
  | cons d ds ih =>
    cases hd : matchesFilter filt d
    · rw [List.countP_cons] at hle
      simp [hd] at hle
      have ihds := ih (by simpa using hle)
      refine ⟨?_, ?_⟩
      · rw [update_one_upsert, if_neg (by simp [hd]), List.countP_cons]
        simp [hd, ihds.1]
      · intro doc hdoc hm kv hkv
        rw [update_one_upsert, if_neg (by simp [hd])] at hdoc
        rcases List.mem_cons.mp hdoc with h0 | h0
        · subst h0; rw [hm] at hd; cases hd
        · exact ihds.2 doc h0 hm kv hkv
    · rw [List.countP_cons] at hle
      simp [hd] at hle
      have hds0 : ds.countP (fun x => matchesFilter filt x) = 0 := by simpa using hle
      refine ⟨?_, ?_⟩
      · rw [update_one_upsert, if_pos (by simp [hd]), List.countP_cons]
        simp [hset d, hds0]
      · intro doc hdoc hm kv hkv
        rw [update_one_upsert, if_pos (by simp [hd])] at hdoc
        rcases List.mem_cons.mp hdoc with h0 | h0
        · subst h0
          exact docGet?_setFields_mem upd d hN hkv
        · exact absurd hm (by
            have := List.countP_eq_zero.mp hds0 doc h0
            simpa using this)

theorem notMem_keys_setField (doc : DSDoc) {x k : String} (v : Json)
    (hx : x ∉ doc.map Prod.fst) (hk : x ≠ k) :
    x ∉ (setField doc k v).map Prod.fst := by
  induction doc with
  | nil => simpa [setField] using hk
  | cons kv ds ih =>
    simp only [List.map_cons, List.mem_cons, not_or] at hx
    by_cases h : kv.1 == k
    · simp [setField, h, hk, hx.2]
    · simp only [setField, h, Bool.false_eq_true, if_neg, ite_false, List.map_cons,
        List.mem_cons, not_or]
      exact ⟨hx.1, ih hx.2⟩

theorem notMem_keys_setFields (upd : DSDoc) (doc : DSDoc) {x : String}
    (hx : x ∉ doc.map Prod.fst) (hupd : ∀ kv ∈ upd, kv.1 ≠ x) :
    x ∉ (setFields doc upd).map Prod.fst := by
  induction upd generalizing doc with
  | nil => exact hx
  | cons kv upd ih =>
    show x ∉ (setFields (setField doc kv.1 kv.2) upd).map Prod.fst
    exact ih _ (notMem_keys_setField doc kv.2 hx (fun hc => hupd kv (by simp) hc.symm))
      (fun y hy => hupd y (by simp [hy]))

theorem update_one_keeps_budget_free (store : List DSDoc) (filt upd : DSDoc) {x : String}
    (hf : ∀ kv ∈ filt, kv.1 ≠ x) (hu : ∀ kv ∈ upd, kv.1 ≠ x)
    (hs : ∀ d ∈ store, x ∉ d.map Prod.fst) :
    ∀ d ∈ update_one_upsert store filt upd, x ∉ d.map Prod.fst := by
  induction store with
  | nil =>
    intro d hd
    rw [update_one_upsert] at hd
    simp only [List.mem_singleton] at hd
    subst hd
    refine notMem_keys_setFields upd filt ?_ hu
    intro hc
    rcases List.mem_map.mp hc with ⟨kv, hkv, hkv2⟩
    exact hf kv hkv hkv2
  | cons d0 ds ih =>
    intro d hd
    rw [update_one_upsert] at hd
    split at hd
    · rcases List.mem_cons.mp hd with h0 | h0
      · subst h0
        exact notMem_keys_setFields upd d0 (hs d0 (by simp)) hu
      · exact hs d (by simp [h0])
    · rcases List.mem_cons.mp hd with h0 | h0
      · subst h0; exact hs d (by simp)
      · exact ih (fun y hy => hs y (by simp [hy])) d h0

/-! ### Facts about sampling and deletion on the Population collection -/

theorem subperm_map {α β : Type} (f : α → β) {l t : List α} (h : List.Subperm l t) :
    List.Subperm (l.map f) (t.map f) := by
  obtain ⟨u, hu, hsub⟩ := h
  exact ⟨u.map f, hu.map f, hsub.map f⟩

theorem subperm_nodup {α : Type} {l t : List α} (h : List.Subperm l t) (ht : t.Nodup) :
    l.Nodup := by
  obtain ⟨u, hu, hsub⟩ := h
  exact hu.nodup (List.Nodup.sublist hsub ht)

theorem length_filter_bool_split {α : Type} (l : List α) (p : α → Bool) :
    (l.filter p).length + (l.filter (fun x => !p x)).length = l.length := by
  induction l with
  | nil => rfl
  | cons x xs ih =>
    cases h : p x <;> simp [List.filter_cons, h] <;> omega

theorem delete_ids_length (pop : List PopDoc) (ids : List Int)
    (hn : (pop.map PopDoc.ID).Nodup)
    (hsub : List.Subperm ids (pop.map PopDoc.ID)) (hidn : ids.Nodup) :
    (pop.filter (fun d => !ids.contains d.ID)).length = pop.length - ids.length := by
  have h1 : (pop.filter (fun d => ids.contains d.ID)).length = ids.length := by
    rw [← List.countP_eq_length_filter]
    have h2 : pop.countP (fun d => ids.contains d.ID) =
        (pop.map PopDoc.ID).countP (fun i => ids.contains i) := by
      rw [List.countP_map]
      rfl
    rw [h2, List.countP_eq_length_filter]
    apply List.Perm.length_eq
    apply (List.perm_ext_iff_of_nodup (List.Nodup.filter _ hn) hidn).mpr
    intro a
    simp only [List.mem_filter]
    constructor
    · rintro ⟨_, hc⟩
      simpa [List.contains, List.elem_eq_mem] using hc
    · intro ha
      refine ⟨hsub.subset ha, ?_⟩
      simpa [List.contains, List.elem_eq_mem] using ha
  have h3 := length_filter_bool_split pop (fun d => ids.contains d.ID)
  omega

/-! ### The claimed properties -/

/-- C1, counterexample: the claim says a selected structured-data object with
malformed individual field values never makes the extraction raise, and in
particular names a non-numeric rating value.  On a page whose `Movie` object
carries `ratingValue: "N/A"`, the extraction step raises `ValueError` (the
uncaught `float("N/A")` of app.py line 166), so `fetch_min_from_imdb` does
not return normally. -/
theorem C1_counterexample :
    fetch_extract "https://example.org/bad"
      { ldScripts := [Except.ok (Json.obj
          [("@type", Json.str "Movie"),
           ("aggregateRating", Json.obj [("ratingValue", Json.str "N/A")])])],
        runtimeTag := none } = .error .valueError := by
  decide

/-- C1 (amended): block-level degradation holds — whenever no structured-data
object of type `Movie`/`CreativeWork` is selected (no script block, a block
that is not valid JSON, or no object of the required type), the extraction
returns normally with Year, IMDbRating and NumberOfVotes null and Runtime
taken only from the fallback element; with no fallback runtime element
either, all four fields are null.  (Malformed field values inside a selected
object, by contrast, raise — see the counterexample.) -/
theorem C1_block_degradation (url : String) (page : Html)
    (h : findLd page.ldScripts = none) :
    fetch_extract url page =
      .ok { url := url, year := none, rating := none, votes := none,
            runtime := fallback_runtime page.runtimeTag } ∧
      (page.runtimeTag = none →
        fetch_extract url page =
          .ok { url := url, year := none, rating := none, votes := none,
                runtime := none }) := by
  have h1 : fetch_extract url page =
      .ok { url := url, year := none, rating := none, votes := none,
            runtime := fallback_runtime page.runtimeTag } := by
    unfold fetch_extract
    rw [h]
    rfl
  refine ⟨h1, fun h2 => ?_⟩
  rw [h1, h2]
  rfl

theorem C1_block_degradation_witness :
    findLd (Html.mk [Except.error (), Except.ok (Json.str "no movie here")] none).ldScripts
        = none ∧
      fetch_extract "https://example.org/empty"
          (Html.mk [Except.error (), Except.ok (Json.str "no movie here")] none) =
        .ok { url := "https://example.org/empty", year := none, rating := none,
              votes := none, runtime := none } :=
  ⟨rfl, (C1_block_degradation "https://example.org/empty"
    (Html.mk [Except.error (), Except.ok (Json.str "no movie here")] none) rfl).2 rfl⟩

/-- C2: on the fixture page whose structured-data block carries
`datePublished "2014-11-07"`, `ratingValue "8.6"`, `ratingCount "2,100,000"`
and `duration "PT2H49M"`, the extraction step returns Year 2014,
IMDbRating 8.6, NumberOfVotes 2100000 and Runtime 169. -/
theorem C2_fixture_extraction :
    fetch_extract "https://www.imdb.com/title/tt0816692/"
      { ldScripts := [Except.ok (Json.obj
          [("@type", Json.str "Movie"),
           ("datePublished", Json.str "2014-11-07"),
           ("aggregateRating", Json.obj
              [("ratingValue", Json.str "8.6"),
               ("ratingCount", Json.str "2,100,000")]),
           ("duration", Json.str "PT2H49M")])],
        runtimeTag := none } =
      .ok { url := "https://www.imdb.com/title/tt0816692/", year := some 2014,
            rating := some ((43 : ℚ) / 5), votes := some 2100000,
            runtime := some 169 } := by
  have hq : ((43 : ℚ) / 5) = mkRat 43 5 := by
    rw [Rat.mkRat_eq_divInt, Rat.divInt_eq_div]
    norm_num
  rw [hq]
  decide

/-- C3: `_iso8601_duration_to_minutes` maps a duration carrying an hour
count before `H` and/or a minute count before `M` to `hours*60 + minutes`
(a missing component counting as zero), except that a zero total gives
null; empty or absent input gives null; in particular `"PT2H10M"` gives
130, `"PT45M"` gives 45, `"PT0H0M"` gives null and `None` gives null. -/
theorem C3_iso_duration :
    (∀ h m : Nat,
      iso_minutes_str (String.mk ('P' :: 'T' :: (numChars h ++ 'H' :: (numChars m ++ ['M'])))) =
        if h * 60 + m = 0 then none else some (h * 60 + m)) ∧
    (∀ m : Nat,
      iso_minutes_str (String.mk ('P' :: 'T' :: (numChars m ++ ['M']))) =
        if m = 0 then none else some m) ∧
    (∀ h : Nat,
      iso_minutes_str (String.mk ('P' :: 'T' :: (numChars h ++ ['H']))) =
        if h = 0 then none else some (h * 60)) ∧
    iso8601_duration_to_minutes (.str "PT2H10M") = .ok (some 130) ∧
    iso8601_duration_to_minutes (.str "PT45M") = .ok (some 45) ∧
    iso8601_duration_to_minutes (.str "PT0H0M") = .ok none ∧
    iso8601_duration_to_minutes .null = .ok none ∧
    iso8601_duration_to_minutes (.str "") = .ok none :=
  ⟨iso_minutes_str_HM, iso_minutes_str_M, iso_minutes_str_H,
    by decide, by decide, by decide, rfl, rfl⟩

/-- C4: `_to_int_safe` depends only on the digit characters of its (string)
input — it strips every non-digit; it returns the integer those digits
spell whenever any remain, and null on `None`, on the empty string, and
whenever no digit remains; `"1,234 votes"` gives 1234. -/
theorem C4_to_int_safe :
    (∀ s t : String, s.data.filter Char.isDigit = t.data.filter Char.isDigit →
      to_int_safe (.str s) = to_int_safe (.str t)) ∧
    (∀ n : Nat, to_int_safe (.str (String.mk (numChars n))) = some (n : Int)) ∧
    (∀ s : String, s.data.filter Char.isDigit = [] → to_int_safe (.str s) = none) ∧
    to_int_safe (.str "1,234 votes") = some 1234 ∧
    to_int_safe .null = none ∧
    to_int_safe (.str "") = none := by
  refine ⟨?_, ?_, ?_, by decide, rfl, rfl⟩
  · intro s t h
    simp only [to_int_safe, pyStr, Json.isNull, h]
  · intro n
    have hfilter : (String.mk (numChars n)).data.filter Char.isDigit = numChars n :=
      List.filter_eq_self.mpr (numChars_isDigit n)
    simp only [to_int_safe, pyStr, Json.isNull, Bool.false_eq_true, if_neg, ite_false,
      hfilter]
    rw [if_neg (by simpa using numChars_ne_nil n), digitsValNat_numChars]
  · intro s h
    simp [to_int_safe, pyStr, Json.isNull, h]

theorem C4_to_int_safe_witness :
    to_int_safe (.str "a1b2") = to_int_safe (.str "12!") ∧
      to_int_safe (.str (String.mk (numChars 1234))) = some 1234 ∧
      to_int_safe (.str ",,votes") = none :=
  ⟨C4_to_int_safe.1 "a1b2" "12!" (by decide),
    C4_to_int_safe.2.1 1234,
    C4_to_int_safe.2.2.1 ",,votes" (by decide)⟩

theorem mem_of_docGet? {doc : DSDoc} {k : String} {v : Json}
    (h : docGet? doc k = some v) : (k, v) ∈ doc := by
  rw [docGet?] at h
  rcases hf : doc.find? (fun kv => kv.1 == k) with _ | ⟨k2, v2⟩
  · rw [hf] at h; cases h
  · rw [hf] at h
    have h2 : v2 = v := by simpa using h
    have hk2 : k2 = k := by simpa using List.find?_some hf
    have hmem := List.mem_of_find?_eq_some hf
    rwa [hk2, h2] at hmem

theorem saveKey_sub (url mv genre dirs writers countries : String) (gross : Nat)
    (fetched : Option ScrapedDoc) :
    ∀ kv ∈ saveKey (mkDocOut url mv genre dirs writers countries gross fetched),
      kv ∈ mkDocOut url mv genre dirs writers countries gross fetched := by
  have hUs : (docGet? (mkDocOut url mv genre dirs writers countries gross fetched)
      "URL").isSome = true := rfl
  have hMs : (docGet? (mkDocOut url mv genre dirs writers countries gross fetched)
      "Movie").isSome = true := rfl
  have hYs : (docGet? (mkDocOut url mv genre dirs writers countries gross fetched)
      "Year").isSome = true := rfl
  intro kv hkv
  rw [saveKey] at hkv
  split at hkv
  · simp only [List.mem_singleton] at hkv
    subst hkv
    obtain ⟨w, hw⟩ := Option.isSome_iff_exists.mp hUs
    rw [hw]
    simpa using mem_of_docGet? hw
  · simp only [List.mem_cons, List.not_mem_nil, or_false] at hkv
    rcases hkv with h0 | h0 <;> subst h0
    · obtain ⟨w, hw⟩ := Option.isSome_iff_exists.mp hMs
      rw [hw]
      simpa using mem_of_docGet? hw
    · obtain ⟨w, hw⟩ := Option.isSome_iff_exists.mp hYs
      rw [hw]
      simpa using mem_of_docGet? hw

/-- C5, counterexample: through save operations alone the Data-Set can reach
a state with two records matching a `(Movie, Year)` key (the fallback filter
also matches records whose URL is non-null); saving a record with that key
then leaves two records at the key, not exactly one.  Concretely: save two
records with distinct URLs but the same Movie and Year, then save a record
with empty URL and that Movie and Year — two records match its key both
before and after the third save. -/
theorem C5_counterexample :
    matchCount
        (save_to_dataset
          (save_to_dataset
            (save_to_dataset [] "https://a.example" "m" "" "" "" "" 0
              (some ⟨"x", some 2020, none, none, none⟩))
            "https://b.example" "m" "" "" "" "" 0
            (some ⟨"x", some 2020, none, none, none⟩))
          "" "m" "" "" "" "" 0 (some ⟨"x", some 2020, none, none, none⟩))
        (saveKey (mkDocOut "" "m" "" "" "" "" 0
          (some ⟨"x", some 2020, none, none, none⟩))) = 2 ∧
      matchCount
        (save_to_dataset
          (save_to_dataset [] "https://a.example" "m" "" "" "" "" 0
            (some ⟨"x", some 2020, none, none, none⟩))
          "https://b.example" "m" "" "" "" "" 0
          (some ⟨"x", some 2020, none, none, none⟩))
        (saveKey (mkDocOut "" "m" "" "" "" "" 0
          (some ⟨"x", some 2020, none, none, none⟩))) = 2 := by
  constructor <;> decide

/-- C5 (amended): the save operation matches on URL when the built record's
URL is truthy, otherwise on the `(Movie, Year)` pair; whenever at most one
stored record matches that key (in particular in the URL round-trip of the
spec), exactly one record matches it after the save, holding the later
call's values for every tracked field, and when no record matches the key
the record is created (appended to the collection).  The original claim's
"exactly one" fails only when several records already match a
`(Movie, Year)` key — see the counterexample. -/
theorem C5_upsert (store : List DSDoc) (url mv genre dirs writers countries : String)
    (gross : Nat) (fetched : Option ScrapedDoc) :
    (matchCount store
        (saveKey (mkDocOut url mv genre dirs writers countries gross fetched)) ≤ 1 →
      matchCount (save_to_dataset store url mv genre dirs writers countries gross fetched)
          (saveKey (mkDocOut url mv genre dirs writers countries gross fetched)) = 1 ∧
        ∀ doc ∈ save_to_dataset store url mv genre dirs writers countries gross fetched,
          matchesFilter (saveKey (mkDocOut url mv genre dirs writers countries gross fetched))
              doc = true →
            ∀ kv ∈ mkDocOut url mv genre dirs writers countries gross fetched,
              docGet? doc kv.1 = some kv.2) ∧
    (matchCount store
        (saveKey (mkDocOut url mv genre dirs writers countries gross fetched)) = 0 →
      save_to_dataset store url mv genre dirs writers countries gross fetched =
        store ++ [setFields (saveKey (mkDocOut url mv genre dirs writers countries gross fetched))
          (mkDocOut url mv genre dirs writers countries gross fetched)]) := by
  have hN : ((mkDocOut url mv genre dirs writers countries gross fetched).map
      Prod.fst).Nodup := by
    rw [show (mkDocOut url mv genre dirs writers countries gross fetched).map Prod.fst =
      dsFields from rfl]
    decide
  constructor
  · intro hle
    exact upsert_spec store _ _ (saveKey_sub url mv genre dirs writers countries gross fetched)
      hN hle
  · intro h0
    exact update_one_no_match store _ _ h0

theorem C5_upsert_witness :
    matchCount (save_to_dataset [] "https://x.example" "Foo" "" "" "" "" 0 none)
        (saveKey (mkDocOut "https://x.example" "Foo" "" "" "" "" 0 none)) = 1 ∧
      save_to_dataset [] "https://x.example" "Foo" "" "" "" "" 0 none =
        [] ++ [setFields (saveKey (mkDocOut "https://x.example" "Foo" "" "" "" "" 0 none))
          (mkDocOut "https://x.example" "Foo" "" "" "" "" 0 none)] :=
  ⟨((C5_upsert [] "https://x.example" "Foo" "" "" "" "" 0 none).1 (by decide)).1,
    (C5_upsert [] "https://x.example" "Foo" "" "" "" "" 0 none).2 (by decide)⟩

/-- C6: the document written by the save operation consists of exactly the
DataSetRecord fields (URL, Movie, Genre, Year, IMDb rating, Director,
Number of Votes, Writer, Country, Runtime, Gross Profit) whatever the
inputs; the key "Budget" is not among them, and a Data-Set state whose
records are all Budget-free stays Budget-free across any save. -/
theorem C6_no_budget (store : List DSDoc) (url mv genre dirs writers countries : String)
    (gross : Nat) (fetched : Option ScrapedDoc) :
    (mkDocOut url mv genre dirs writers countries gross fetched).map Prod.fst = dsFields ∧
      "Budget" ∉ (mkDocOut url mv genre dirs writers countries gross fetched).map Prod.fst ∧
      ((∀ d ∈ store, "Budget" ∉ d.map Prod.fst) →
        ∀ d ∈ save_to_dataset store url mv genre dirs writers countries gross fetched,
          "Budget" ∉ d.map Prod.fst) := by
  have hkeys : (mkDocOut url mv genre dirs writers countries gross fetched).map Prod.fst =
      dsFields := rfl
  have hnb : "Budget" ∉ (mkDocOut url mv genre dirs writers countries gross fetched).map
      Prod.fst := by
    rw [hkeys]
    decide
  have hu : ∀ kv ∈ mkDocOut url mv genre dirs writers countries gross fetched,
      kv.1 ≠ "Budget" := by
    intro kv hkv hc
    exact hnb (hc ▸ List.mem_map_of_mem Prod.fst hkv)
  refine ⟨hkeys, hnb, fun hs => ?_⟩
  exact update_one_keeps_budget_free store _ _
    (fun kv hkv => hu kv (saveKey_sub url mv genre dirs writers countries gross fetched kv hkv))
    hu hs

theorem C6_no_budget_witness :
    "Budget" ∉ (setFields (saveKey (mkDocOut "https://y.example" "Bar" "" "" "" "" 0 none))
      (mkDocOut "https://y.example" "Bar" "" "" "" "" 0 none)).map Prod.fst :=
  (C6_no_budget [] "https://y.example" "Bar" "" "" "" "" 0 none).2.2
    (fun d hd => absurd hd (List.not_mem_nil d))
    (setFields (saveKey (mkDocOut "https://y.example" "Bar" "" "" "" "" 0 none))
      (mkDocOut "https://y.example" "Bar" "" "" "" "" 0 none))
    (List.mem_singleton.mpr rfl)

/-- C7: when the backend cannot be reached, every Population-store operation
catches the failure at its boundary: listing returns an empty frame,
sampling an empty list, point and bulk deletion a deleted count of zero,
each together with a reported error message and with the stored population
untouched. -/
theorem C7_failure_defaults (pop : List PopDoc) (reply : List (Int × String))
    (ids : List Int) (i : Int) :
    load_df false pop = ([], some loadErrMsg) ∧
      sample_docs false reply = ([], some "Sampling failed") ∧
      delete_one_by_id false pop i = (pop, 0, some "Delete failed") ∧
      delete_many_by_ids false pop ids = (pop, 0, some "Bulk delete failed") :=
  ⟨rfl, rfl, rfl, rfl⟩

/-- C8: on a reachable backend, `load_df` returns the population records
projected to exactly the pair (ID, Movie), sorted by ID ascending — the
output is a permutation of the projection of the stored records, its ID
column is sorted, and no error is reported. -/
theorem C8_listing (pop : List PopDoc) :
    ((load_df true pop).1.map Prod.fst).Sorted (· ≤ ·) ∧
      List.Perm (load_df true pop).1 (pop.map (fun d => (d.ID, d.Movie))) ∧
      (load_df true pop).2 = none := by
  refine ⟨?_, ?_, rfl⟩
  · have hs := List.sorted_insertionSort popLE pop
    have hmm : (load_df true pop).1.map Prod.fst =
        (List.insertionSort popLE pop).map PopDoc.ID := by
      show ((List.insertionSort popLE pop).map (fun d => (d.ID, d.Movie))).map Prod.fst = _
      rw [List.map_map]
      rfl
    rw [hmm]
    exact List.Pairwise.map _ (fun a b hab => hab) hs
  · exact (List.perm_insertionSort popLE pop).map (fun d => (d.ID, d.Movie))

/-- C9: for a population with distinct IDs, drawing a sample of size `k < N`
and then bulk-deleting exactly the sampled IDs leaves `N - k` records, and
no deleted ID remains in the collection. -/
theorem C9_sample_delete (pop : List PopDoc) (s : List (Int × String)) (k : Nat)
    (hn : (pop.map PopDoc.ID).Nodup) (hs : IsSample pop k s) (_hk : k < pop.length) :
    ((delete_many_by_ids true pop (s.map Prod.fst)).1).length = pop.length - k ∧
      ∀ i ∈ s.map Prod.fst, ∀ d ∈ (delete_many_by_ids true pop (s.map Prod.fst)).1,
        d.ID ≠ i := by
  obtain ⟨hlen, hsub⟩ := hs
  have hidsub : List.Subperm (s.map Prod.fst) (pop.map PopDoc.ID) := by
    have h := subperm_map Prod.fst hsub
    rwa [List.map_map] at h
  have hidn : (s.map Prod.fst).Nodup := subperm_nodup hidsub hn
  constructor
  · show (pop.filter (fun d => !(s.map Prod.fst).contains d.ID)).length = pop.length - k
    rw [delete_ids_length pop (s.map Prod.fst) hn hidsub hidn, List.length_map, hlen]
  · intro i hi d hd hc
    have hd2 : d ∈ pop.filter (fun x => !(s.map Prod.fst).contains x.ID) := hd
    rw [List.mem_filter] at hd2
    have : d.ID ∉ s.map Prod.fst := by
      simpa [List.contains, List.elem_eq_mem] using hd2.2
    exact this (hc ▸ hi)

theorem C9_sample_delete_witness :
    ((delete_many_by_ids true ([⟨1, "a", []⟩, ⟨2, "b", []⟩, ⟨3, "c", []⟩] : List PopDoc)
        (([(2, "b")] : List (Int × String)).map Prod.fst)).1).length = 3 - 1 :=
  (C9_sample_delete [⟨1, "a", []⟩, ⟨2, "b", []⟩, ⟨3, "c", []⟩] [(2, "b")] 1
    (by decide)
    ⟨rfl, ⟨[(2, "b")], List.Perm.refl _,
      List.Sublist.cons (1, "a") (List.Sublist.cons₂ (2, "b") (List.nil_sublist [(3, "c")]))⟩⟩
    (by decide)).1

/-- C10: `_to_int_safe` never returns a negative integer — sign characters
are stripped with every other non-digit, so `"-12"` (and the non-string
integer `-12`, handled through its string representation) both yield 12. -/
theorem C10_nonneg :
    (∀ j : Json, ∀ n : Int, to_int_safe j = some n → 0 ≤ n) ∧
      to_int_safe (.str "-12") = some 12 ∧
      to_int_safe (.int (-12)) = some 12 := by
  refine ⟨?_, by decide, by decide⟩
  intro j n h
  rw [to_int_safe] at h
  split at h
  · cases h
  · simp only at h
    split at h
    · cases h
    · cases h
      exact Int.ofNat_nonneg _

theorem C10_nonneg_witness : (0 : Int) ≤ 12 :=
  C10_nonneg.1 (.str "-12") 12 (by decide)
